import Mathlib

/-!
# Silhouette maker: the luminance-threshold transform and the image browser

A shallow embedding of `main.go`.

* The Go standard-library types the program touches (`image.Point`,
  `image.Rectangle`, `image.Image`, `image.RGBA`, `color.RGBA`, `color.NRGBA`)
  are modelled by their documented behaviour.  An `image.RGBA` is a rectangle
  together with the colour stored at each point; the byte layout of its pixel
  buffer is not modelled.
* Go `int` is `Int`; `uint32` is `Nat` with every operation reduced modulo `2^32`.
* A finite `float64` is the rational number it denotes, and every `float64`
  operation is the exact result rounded to the nearest binary64 number, ties to
  even (IEEE 754); see `float64`.
* A runtime panic is `none`.
-/

namespace image

/-- Go `image.Point`. -/
structure Point where
  X : Int
  Y : Int
deriving DecidableEq, Repr

/-- Go `image.Rectangle`: the points with `Min.X ≤ X < Max.X`, `Min.Y ≤ Y < Max.Y`. -/
structure Rectangle where
  Min : Point
  Max : Point
deriving DecidableEq, Repr

/-- Go `Rectangle.Dx`: the width. -/
def Rectangle.Dx (r : Rectangle) : Int := r.Max.X - r.Min.X

/-- Go `Rectangle.Dy`: the height. -/
def Rectangle.Dy (r : Rectangle) : Int := r.Max.Y - r.Min.Y

/-- Go `Point.In`: whether the point lies in the rectangle. -/
def Point.In (p : Point) (r : Rectangle) : Bool :=
  decide (r.Min.X ≤ p.X) && decide (p.X < r.Max.X) &&
    decide (r.Min.Y ≤ p.Y) && decide (p.Y < r.Max.Y)

/-- A rectangle is well-formed when `Min.X ≤ Max.X` and `Min.Y ≤ Max.Y`
(the Go documentation's term); every decoded image has such bounds. -/
def Rectangle.WellFormed (r : Rectangle) : Prop :=
  r.Min.X ≤ r.Max.X ∧ r.Min.Y ≤ r.Max.Y

instance (r : Rectangle) : Decidable r.WellFormed := by
  unfold Rectangle.WellFormed; infer_instance

end image

namespace color

/-- Go `color.RGBA`: four 8-bit channels. -/
structure RGBA where
  R : Nat
  G : Nat
  B : Nat
  A : Nat
deriving DecidableEq, Repr

/-- The result of Go's `Color.RGBA()` method: four `uint32` values, which the
interface contract places in `[0, 0xffff]` (alpha-premultiplied). A value of the
`color.Color` interface is represented by what this method returns, since that is
all the program observes of it. -/
structure Color where
  r : Nat
  g : Nat
  b : Nat
  a : Nat
deriving DecidableEq, Repr

/-- Go `color.NRGBA`: non-premultiplied (straight) 8-bit channels. -/
structure NRGBA where
  R : Nat
  G : Nat
  B : Nat
  A : Nat
deriving DecidableEq, Repr

/-- Go `color.NRGBA.RGBA()`: each straight channel is widened to 16 bits
(`c |= c << 8`, i.e. times `0x101`), multiplied by the 8-bit alpha and divided
by `0xff`; alpha is widened to 16 bits. -/
def NRGBA.RGBA (c : NRGBA) : Color :=
  { r := c.R * 0x101 * c.A / 0xff
    g := c.G * 0x101 * c.A / 0xff
    b := c.B * 0x101 * c.A / 0xff
    a := c.A * 0x101 }

end color

namespace image

/-- Go `image.Image` as the program uses it: `Bounds()` and, for each point,
the channels `At(x, y).RGBA()`. -/
structure Image where
  Bounds : Rectangle
  At : Int → Int → color.Color

/-- Go `image.RGBA`: a rectangle and the colour stored at each of its points. -/
structure RGBA where
  Rect : Rectangle
  Pix : Int → Int → color.RGBA

/-- Go `image.NewRGBA`: a fresh image with the given bounds, every pixel zero.
It panics when the rectangle has a negative width or height. (The library's
further check that the buffer length fits in an `int` is an allocation limit
and lies outside this model, where `int` is unbounded.) -/
def NewRGBA (r : Rectangle) : Option RGBA :=
  if r.Dx < 0 ∨ r.Dy < 0 then none
  else some { Rect := r, Pix := fun _ _ => ⟨0, 0, 0, 0⟩ }

/-- Go `(*image.RGBA).Set` with a `color.RGBA` argument: a no-op outside `Rect`,
otherwise the colour is stored at `(x, y)`. -/
def RGBA.Set (p : RGBA) (x y : Int) (c : color.RGBA) : RGBA :=
  if Point.In ⟨x, y⟩ p.Rect then
    { p with Pix := fun x1 y1 => if x1 = x ∧ y1 = y then c else p.Pix x1 y1 }
  else p

/-- Go `(*image.RGBA).RGBAAt`: the zero colour outside `Rect`, the stored colour inside. -/
def RGBA.RGBAAt (p : RGBA) (x y : Int) : color.RGBA :=
  if Point.In ⟨x, y⟩ p.Rect then p.Pix x y else ⟨0, 0, 0, 0⟩

end image

namespace draw

/-- Go `draw.Draw(dst, r, &image.Uniform{c}, image.Point{}, draw.Src)`:
`image.Uniform` is an infinite-sized image of one colour, so the call replaces
every pixel of `dst` that lies in `r` by `c`. -/
def Draw (dst : image.RGBA) (r : image.Rectangle) (c : color.RGBA) : image.RGBA :=
  { dst with Pix := fun x y =>
      if image.Point.In ⟨x, y⟩ r && image.Point.In ⟨x, y⟩ dst.Rect then c else dst.Pix x y }

end draw

/-! ## binary64 arithmetic -/

/-- Rounding of a rational to the nearest integer, ties to the even one. -/
def roundHalfEven (q : ℚ) : ℤ :=
  if q - ⌊q⌋ < 1 / 2 then ⌊q⌋
  else if 1 / 2 < q - ⌊q⌋ then ⌊q⌋ + 1
  else if ⌊q⌋ % 2 = 0 then ⌊q⌋ else ⌊q⌋ + 1

/-- The binary64 exponent at magnitude `q`: `⌊log₂ q⌋`, and the least normal
exponent `-1022` throughout the subnormal range. -/
def float64.exponent (q : ℚ) : ℤ := max (Int.log 2 q) (-1022)

/-- The spacing of binary64 numbers at magnitude `q` (53 significant bits). -/
def float64.ulp (q : ℚ) : ℚ := 2 ^ (float64.exponent q - 52)

/-- The binary64 number nearest to a non-negative rational, ties to even. -/
def float64.roundMagnitude (q : ℚ) : ℚ := roundHalfEven (q / float64.ulp q) * float64.ulp q

/-- The value a Go `float64` operation returns when its exact result is `q`:
round to nearest, ties to even. Overflow to infinity is not modelled: the
operands of the program (a `uint32` sum divided by 1000 and by 65535, and
`1.0 - s.threshold` for a finite `s.threshold`) stay below the largest binary64. -/
def float64 (q : ℚ) : ℚ :=
  if 0 ≤ q then float64.roundMagnitude q else -float64.roundMagnitude (-q)

/-- The fields of `SilhouetteApp` that carry program state (the widget
pointers are display only). `threshold` is a finite `float64`. -/
structure SilhouetteApp where
  folderPath : String
  images : List String
  currentImage : Int
  threshold : ℚ

/-- Reduction of a natural number to the range of `uint32`. -/
def u32 (n : Nat) : Nat := n % 2 ^ 32

/-- The expression `r*299+g*587+b*114` of `generateSilhouette`, evaluated in
`uint32` arithmetic: every product and every sum wraps modulo `2^32`. -/
def lumaSum (c : color.Color) : Nat :=
  u32 (u32 (u32 (c.r * 299) + u32 (c.g * 587)) + u32 (c.b * 114))

/-- The value `gray := float64(r*299+g*587+b*114) / 1000.0 / 65535.0`: the
conversion of a `uint32` to `float64` is exact, each of the two divisions rounds. -/
def gray (c : color.Color) : ℚ := float64 (float64 ((lumaSum c : ℚ) / 1000) / 65535)

/-- Opaque black, `color.RGBA{0, 0, 0, 255}`. -/
def black : color.RGBA := ⟨0, 0, 0, 255⟩

/-- Opaque white, `color.RGBA{255, 255, 255, 255}`. -/
def white : color.RGBA := ⟨255, 255, 255, 255⟩

namespace SilhouetteApp

/-- The body of the inner loop of `generateSilhouette` at `(x, y)`. -/
def generateSilhouette.pixel (s : SilhouetteApp) (img : image.Image) (x y : Int)
    (silhouette : image.RGBA) : image.RGBA :=
  let oldColor := img.At x y
  let gray := gray oldColor
  let adjustedThreshold := float64 (1 - s.threshold)
  if gray < adjustedThreshold ∧ oldColor.a > 0 then
    silhouette.Set x y ⟨0, 0, 0, 255⟩
  else silhouette

/-- The inner loop `for x := ...; x < bounds.Max.X; x++`, started at `x` with
`n` iterations left. -/
def generateSilhouette.row (s : SilhouetteApp) (img : image.Image) (y : Int) :
    Nat → Int → image.RGBA → image.RGBA
  | 0, _, silhouette => silhouette
  | n + 1, x, silhouette =>
      generateSilhouette.row s img y n (x + 1) (generateSilhouette.pixel s img x y silhouette)

/-- The outer loop `for y := ...; y < bounds.Max.Y; y++`, started at `y` with
`n` iterations left. -/
def generateSilhouette.rows (s : SilhouetteApp) (img : image.Image) :
    Nat → Int → image.RGBA → image.RGBA
  | 0, _, silhouette => silhouette
  | n + 1, y, silhouette =>
      generateSilhouette.rows s img n (y + 1)
        (generateSilhouette.row s img y (img.Bounds.Max.X - img.Bounds.Min.X).toNat
          img.Bounds.Min.X silhouette)

/-- The bitmap `silhouette` that `generateSilhouette` has computed when its
pixel loops end (main.go:362-384): allocate, fill with white, run the loops. -/
def generateSilhouette.silhouette (s : SilhouetteApp) (img : image.Image) :
    Option image.RGBA :=
  let bounds := img.Bounds
  match image.NewRGBA bounds with
  | none => none
  | some silhouette =>
    let silhouette := draw.Draw silhouette bounds ⟨255, 255, 255, 255⟩
    some (generateSilhouette.rows s img (bounds.Max.Y - bounds.Min.Y).toNat bounds.Min.Y silhouette)

end SilhouetteApp

namespace png

/-- Go `png.Encode` into a `strings.Builder`, which cannot fail to write: the
encoder rejects an image whose width or height is not in `[1, 2^32)` with the
format error "invalid image size", and otherwise writes the PNG of the image. -/
def Encode (m : image.RGBA) : Except String Unit :=
  let mw := m.Rect.Dx
  let mh := m.Rect.Dy
  if mw ≤ 0 ∨ mh ≤ 0 ∨ mw ≥ 2 ^ 32 ∨ mh ≥ 2 ^ 32 then .error "invalid image size"
  else .ok ()

end png

namespace SilhouetteApp

/-- What `generateSilhouette` leaves behind: an error dialog, or the preview
`s.silhouetteImage` set to the PNG of the bitmap. -/
inductive generateSilhouette.Outcome where
  | errorDialog (err : String)
  | preview (silhouette : image.RGBA)

/-- The function `generateSilhouette` (main.go:361-396): compute the bitmap,
encode it as PNG, and either show the encoder's error and return, or put the
encoded bitmap in the preview. -/
def generateSilhouette (s : SilhouetteApp) (img : image.Image) :
    Option generateSilhouette.Outcome :=
  match generateSilhouette.silhouette s img with
  | none => none
  | some silhouette =>
    match png.Encode silhouette with
    | .error err => some (.errorDialog err)
    | .ok _ => some (.preview silhouette)

end SilhouetteApp

namespace SilhouetteApp

/-- The body of the inner loop inlined in `saveSilhouette` at `(x, y)`. -/
def saveSilhouette.pixel (s : SilhouetteApp) (img : image.Image) (x y : Int)
    (silhouette : image.RGBA) : image.RGBA :=
  let oldColor := img.At x y
  let gray := gray oldColor
  let adjustedThreshold := float64 (1 - s.threshold)
  if gray < adjustedThreshold ∧ oldColor.a > 0 then
    silhouette.Set x y ⟨0, 0, 0, 255⟩
  else silhouette

/-- The inner loop over `x` inlined in `saveSilhouette`, started at `x` with
`n` iterations left. -/
def saveSilhouette.row (s : SilhouetteApp) (img : image.Image) (y : Int) :
    Nat → Int → image.RGBA → image.RGBA
  | 0, _, silhouette => silhouette
  | n + 1, x, silhouette =>
      saveSilhouette.row s img y n (x + 1) (saveSilhouette.pixel s img x y silhouette)

/-- The outer loop over `y` inlined in `saveSilhouette`, started at `y` with
`n` iterations left. -/
def saveSilhouette.rows (s : SilhouetteApp) (img : image.Image) :
    Nat → Int → image.RGBA → image.RGBA
  | 0, _, silhouette => silhouette
  | n + 1, y, silhouette =>
      saveSilhouette.rows s img n (y + 1)
        (saveSilhouette.row s img y (img.Bounds.Max.X - img.Bounds.Min.X).toNat
          img.Bounds.Min.X silhouette)

/-- The "Generate silhouette" block of the save callback of `saveSilhouette`,
applied to the image it has just decoded: the bitmap handed to `png.Encode`. -/
def saveSilhouette.render (s : SilhouetteApp) (img : image.Image) : Option image.RGBA :=
  let bounds := img.Bounds
  match image.NewRGBA bounds with
  | none => none
  | some silhouette =>
    let silhouette := draw.Draw silhouette bounds ⟨255, 255, 255, 255⟩
    some (saveSilhouette.rows s img (bounds.Max.Y - bounds.Min.Y).toNat bounds.Min.Y silhouette)

end SilhouetteApp

/-! ## The image browser -/

/-- Go slice indexing `xs[i]`: a runtime panic (`none`) when `i` is out of range. -/
def sliceIndex (xs : List String) (i : Int) : Option String :=
  if 0 ≤ i ∧ i < (xs.length : Int) then xs.get? i.toNat else none

/-- One call of the `filepath.Walk` callback: the visited path, its lower-cased
extension `strings.ToLower(filepath.Ext(path))`, whether it is a directory, and
whether the walk reports an error for it. -/
structure WalkEntry where
  path : String
  ext : String
  isDir : Bool
  err : Bool

/-- The `filepath.Walk` call of `loadImages` over the entries it visits in
order: the callback returns the error it is given, which stops the walk, and
otherwise appends the path of every non-directory with a supported extension.
The result is `s.images` and whether the walk returned an error. -/
def walk : List WalkEntry → List String → List String × Bool
  | [], images => (images, false)
  | e :: rest, images =>
    if e.err then (images, true)
    else if !e.isDir then
      if e.ext = ".jpg" ∨ e.ext = ".jpeg" ∨ e.ext = ".png" then
        walk rest (images ++ [e.path])
      else walk rest images
    else walk rest images

namespace SilhouetteApp

/-- The function `updateUI`, as far as the state is concerned: it reads
`s.images[s.currentImage]` unless the list is empty. -/
def updateUI (s : SilhouetteApp) : Option Unit :=
  if s.images.length = 0 then some ()
  else (sliceIndex s.images s.currentImage).map fun _ => ()

/-- The function `loadCurrentImage`, as far as the state is concerned: it reads
`s.images[s.currentImage]` unless the list is empty; the file it then opens
and the preview it renders do not touch the state. -/
def loadCurrentImage (s : SilhouetteApp) : Option Unit :=
  if s.images.length = 0 then some ()
  else (sliceIndex s.images s.currentImage).map fun _ => ()

/-- The function `loadImages`, given what `filepath.Walk` visits. -/
def loadImages (s : SilhouetteApp) (entries : List WalkEntry) : Option SilhouetteApp :=
  let s := { s with images := [] }
  let r := walk entries s.images
  let s := { s with images := r.1 }
  if r.2 then some s
  else if s.images.length = 0 then some s
  else
    let s := { s with currentImage := 0 }
    (updateUI s).bind fun _ => (loadCurrentImage s).bind fun _ => some s

/-- The function `onThresholdChanged`. -/
def onThresholdChanged (s : SilhouetteApp) (value : ℚ) : Option SilhouetteApp :=
  let s := { s with threshold := value }
  (loadCurrentImage s).bind fun _ => some s

/-- The function `previousImage`. -/
def previousImage (s : SilhouetteApp) : Option SilhouetteApp :=
  if s.currentImage > 0 then
    let s := { s with currentImage := s.currentImage - 1 }
    (updateUI s).bind fun _ => (loadCurrentImage s).bind fun _ => some s
  else some s

/-- The function `nextImage`. -/
def nextImage (s : SilhouetteApp) : Option SilhouetteApp :=
  if s.currentImage < (s.images.length : Int) - 1 then
    let s := { s with currentImage := s.currentImage + 1 }
    (updateUI s).bind fun _ => (loadCurrentImage s).bind fun _ => some s
  else some s

/-- The function `saveSilhouette`, as far as the state is concerned: it reads
`s.images[s.currentImage]` unless the list is empty, then opens the save dialog. -/
def saveSilhouette (s : SilhouetteApp) : Option SilhouetteApp :=
  if s.images.length = 0 then some s
  else (sliceIndex s.images s.currentImage).map fun _ => s

end SilhouetteApp

/-- The user actions that reach the browser state. -/
inductive Event where
  | loadImages (entries : List WalkEntry)
  | previousImage
  | nextImage
  | onThresholdChanged (value : ℚ)
  | saveSilhouette

/-- One user action. -/
def step (s : SilhouetteApp) : Event → Option SilhouetteApp
  | .loadImages entries => s.loadImages entries
  | .previousImage => s.previousImage
  | .nextImage => s.nextImage
  | .onThresholdChanged value => s.onThresholdChanged value
  | .saveSilhouette => s.saveSilhouette

/-- A sequence of user actions; `none` as soon as one of them panics. -/
def run : List Event → SilhouetteApp → Option SilhouetteApp
  | [], s => some s
  | e :: es, s => (step s e).bind (run es)

/-- The state that `main` builds: no folder, no images, index 0, threshold 0.5. -/
def initialApp : SilhouetteApp :=
  { folderPath := "", images := [], currentImage := 0, threshold := 1 / 2 }

/-- The index invariant: a non-empty image list has `currentImage` in range. -/
def IndexInRange (s : SilhouetteApp) : Prop :=
  s.images ≠ [] → 0 ≤ s.currentImage ∧ s.currentImage < (s.images.length : Int)

/-- The walks of the action, if any, end without an error. -/
def Event.NoWalkError : Event → Prop
  | .loadImages entries => (walk entries []).2 = false
  | _ => True

/-! ## Concrete inputs -/

/-- An `image.NRGBA`-style image seen through the `image.Image` interface:
`At(x, y)` is a `color.NRGBA` and the program reads its `RGBA()`. -/
def nrgbaImage (bounds : image.Rectangle) (pix : Int → Int → color.NRGBA) : image.Image :=
  { Bounds := bounds, At := fun x y => (pix x y).RGBA }

/-- The 2×2 opaque bitmap of the concrete scenarios, in row-major order
`(0,0), (1,0), (0,1), (1,1)`, with luminances exactly 0.0, 0.3, 0.6, 1.0. -/
def scenarioImage : image.Image :=
  nrgbaImage ⟨⟨0, 0⟩, ⟨2, 2⟩⟩ fun x y =>
    if x = 0 ∧ y = 0 then ⟨0, 0, 0, 255⟩
    else if x = 1 ∧ y = 0 then ⟨69, 81, 73, 255⟩
    else if x = 0 ∧ y = 1 then ⟨153, 153, 153, 255⟩
    else ⟨255, 255, 255, 255⟩

/-- Two `color.NRGBA` pixels with the same straight colour, white: the one at
`x = 0` opaque, the other of alpha 1. -/
def fadedPixels : Int → Int → color.NRGBA := fun x _ =>
  if x = 0 then ⟨255, 255, 255, 255⟩ else ⟨255, 255, 255, 1⟩

/-- The 2×1 bitmap of `fadedPixels`. -/
def fadedImage : image.Image := nrgbaImage ⟨⟨0, 0⟩, ⟨2, 1⟩⟩ fadedPixels

/-- A 2×1 bitmap of two pixels whose premultiplied channels agree while their
alpha differs: straight white of alpha 1, and the opaque straight colour `(1,1,1)`. -/
def shadedImage : image.Image :=
  nrgbaImage ⟨⟨0, 0⟩, ⟨2, 1⟩⟩ fun x _ =>
    if x = 0 then ⟨255, 255, 255, 1⟩ else ⟨1, 1, 1, 255⟩

/-- A 1×1 bitmap whose only pixel is fully transparent with dark colour channels. -/
def transparentImage : image.Image :=
  { Bounds := ⟨⟨0, 0⟩, ⟨1, 1⟩⟩, At := fun _ _ => ⟨0, 0, 0, 0⟩ }

/-- A zero-area bitmap: width 0, height 3. -/
def emptyImage : image.Image :=
  nrgbaImage ⟨⟨0, 0⟩, ⟨0, 3⟩⟩ fun _ _ => ⟨0, 0, 0, 255⟩

/-- A 1×1 opaque bitmap of the straight colour `(102,102,102)`, luminance 0.4. -/
def boundaryImage : image.Image :=
  nrgbaImage ⟨⟨0, 0⟩, ⟨1, 1⟩⟩ fun _ _ => ⟨102, 102, 102, 255⟩

/-- The `float64` nearest to 0.1, the value of the Go literal `0.1`. -/
def intensity01 : ℚ := 3602879701896397 / 36028797018963968

/-- The `float64` nearest to 0.6, the value of the Go literal `0.6`. -/
def intensity06 : ℚ := 5404319552844595 / 9007199254740992

/-- The application state with a given slider value. -/
def appWith (t : ℚ) : SilhouetteApp := { initialApp with threshold := t }

/-- A walk that finds three images. -/
def threeImages : List WalkEntry :=
  [⟨"pics", "", true, false⟩, ⟨"pics/a.png", ".png", false, false⟩,
   ⟨"pics/b.jpg", ".jpg", false, false⟩, ⟨"pics/c.jpeg", ".jpeg", false, false⟩]

/-- A walk that finds one image and then fails on an unreadable directory; the
entry after the failure is never visited. -/
def failingWalk : List WalkEntry :=
  [⟨"other", "", true, false⟩, ⟨"other/a.png", ".png", false, false⟩,
   ⟨"other/locked", "", true, true⟩, ⟨"other/z.png", ".png", false, false⟩]

/-! ## binary64 rounding -/

theorem roundHalfEven_intCast (n : ℤ) : roundHalfEven (n : ℚ) = n := by
  unfold roundHalfEven
  rw [Int.floor_intCast, sub_self, if_pos (by norm_num)]

theorem floor_le_roundHalfEven (q : ℚ) : ⌊q⌋ ≤ roundHalfEven q := by
  unfold roundHalfEven
  split_ifs <;> omega

theorem roundHalfEven_le_floor_add_one (q : ℚ) : roundHalfEven q ≤ ⌊q⌋ + 1 := by
  unfold roundHalfEven
  split_ifs <;> omega

theorem roundHalfEven_mono {x y : ℚ} (h : x ≤ y) : roundHalfEven x ≤ roundHalfEven y := by
  have hf : ⌊x⌋ ≤ ⌊y⌋ := Int.floor_mono h
  rcases lt_or_eq_of_le hf with hlt | heq
  · calc roundHalfEven x ≤ ⌊x⌋ + 1 := roundHalfEven_le_floor_add_one x
      _ ≤ ⌊y⌋ := hlt
      _ ≤ roundHalfEven y := floor_le_roundHalfEven y
  · unfold roundHalfEven
    rw [heq]
    split_ifs <;> first | omega | (exfalso; linarith)

/-- Nearest-integer characterisation: an integer within less than a half of `q` is its rounding. -/
theorem roundHalfEven_eq_of_near (q : ℚ) (k : ℤ) (h1 : (k : ℚ) - 1 / 2 < q)
    (h2 : q < (k : ℚ) + 1 / 2) : roundHalfEven q = k := by
  unfold roundHalfEven
  rcases le_or_lt (k : ℚ) q with hk | hk
  · have hfl : ⌊q⌋ = k := by
      rw [Int.floor_eq_iff]
      constructor
      · exact hk
      · linarith
    rw [hfl, if_pos (by linarith)]
  · have hfl : ⌊q⌋ = k - 1 := by
      rw [Int.floor_eq_iff]
      push_cast
      constructor
      · linarith
      · linarith
    rw [hfl]
    push_cast
    rw [if_neg (by linarith), if_pos (by linarith)]
    ring

theorem ulp_pos (q : ℚ) : 0 < float64.ulp q := by
  unfold float64.ulp float64.exponent
  positivity

theorem roundPos_nonneg {q : ℚ} (hq : 0 ≤ q) : 0 ≤ float64.roundMagnitude q := by
  unfold float64.roundMagnitude
  have h0 : (0 : ℤ) ≤ roundHalfEven (q / float64.ulp q) := by
    have := roundHalfEven_mono (div_nonneg hq (ulp_pos q).le)
    rwa [show ((0 : ℚ)) = ((0 : ℤ) : ℚ) by norm_num, roundHalfEven_intCast] at this
  have : (0 : ℚ) ≤ (roundHalfEven (q / float64.ulp q) : ℚ) := by exact_mod_cast h0
  exact mul_nonneg this (ulp_pos q).le

theorem roundPos_zero : float64.roundMagnitude 0 = 0 := by
  unfold float64.roundMagnitude
  rw [zero_div, show ((0 : ℚ)) = ((0 : ℤ) : ℚ) by norm_num, roundHalfEven_intCast]
  simp

theorem log_eq_of_bounds {q : ℚ} {e : ℤ} (h1 : (2 : ℚ) ^ e ≤ q)
    (h2 : q < (2 : ℚ) ^ (e + 1)) : Int.log 2 q = e := by
  have hq : 0 < q := lt_of_lt_of_le (by positivity) h1
  have a : e ≤ Int.log 2 q := by
    rw [← Int.zpow_le_iff_le_log (by norm_num) hq]
    simpa using h1
  have b : Int.log 2 q < e + 1 := by
    rw [← Int.lt_zpow_iff_log_lt (by norm_num) hq]
    simpa using h2
  omega

theorem log_bounds {q : ℚ} (hq : 0 < q) :
    (2 : ℚ) ^ Int.log 2 q ≤ q ∧ q < (2 : ℚ) ^ (Int.log 2 q + 1) := by
  constructor
  · simpa using @Int.zpow_log_le_self ℚ _ _ 2 q (by norm_num) hq
  · simpa using @Int.lt_zpow_succ_log_self ℚ _ _ 2 (by norm_num) q

theorem ulp_eq (q : ℚ) : float64.ulp q = 2 ^ (float64.exponent q - 52) := rfl

theorem pow53_mul (E : ℤ) : ((2 ^ 53 : ℤ) : ℚ) * 2 ^ (E - 52) = 2 ^ (E + 1) := by
  have h : ((2 ^ 53 : ℤ) : ℚ) = (2 : ℚ) ^ (53 : ℤ) := by norm_num
  rw [h, ← zpow_add₀ (by norm_num)]
  congr 1
  ring

theorem pow52_mul (E : ℤ) : ((2 ^ 52 : ℤ) : ℚ) * 2 ^ (E - 52) = 2 ^ E := by
  have h : ((2 ^ 52 : ℤ) : ℚ) = (2 : ℚ) ^ (52 : ℤ) := by norm_num
  rw [h, ← zpow_add₀ (by norm_num)]
  congr 1
  ring

theorem roundPos_le (q : ℚ) : float64.roundMagnitude q ≤ 2 ^ (float64.exponent q + 1) := by
  have hlt : q < 2 ^ (float64.exponent q + 1) := by
    rcases le_or_lt q 0 with hq | hq
    · exact lt_of_le_of_lt hq (by positivity)
    · refine lt_of_lt_of_le (log_bounds hq).2 ?_
      apply zpow_le_zpow_right₀ (by norm_num)
      unfold float64.exponent
      omega
  have hdiv : q / float64.ulp q ≤ ((2 ^ 53 : ℤ) : ℚ) := by
    rw [div_le_iff₀ (ulp_pos q), ulp_eq, pow53_mul]
    exact hlt.le
  have hr := roundHalfEven_mono hdiv
  rw [roundHalfEven_intCast] at hr
  have hr2 : (roundHalfEven (q / float64.ulp q) : ℚ) ≤ ((2 ^ 53 : ℤ) : ℚ) := by exact_mod_cast hr
  unfold float64.roundMagnitude
  calc (roundHalfEven (q / float64.ulp q) : ℚ) * float64.ulp q ≤ ((2 ^ 53 : ℤ) : ℚ) * float64.ulp q :=
        mul_le_mul_of_nonneg_right hr2 (ulp_pos q).le
    _ = 2 ^ (float64.exponent q + 1) := by rw [ulp_eq, pow53_mul]

theorem le_roundPos {q : ℚ} (hq : 0 < q) (hn : -1022 ≤ Int.log 2 q) :
    (2 : ℚ) ^ float64.exponent q ≤ float64.roundMagnitude q := by
  have he : float64.exponent q = Int.log 2 q := by unfold float64.exponent; omega
  have hge : (2 : ℚ) ^ float64.exponent q ≤ q := by rw [he]; exact (log_bounds hq).1
  have hdiv : ((2 ^ 52 : ℤ) : ℚ) ≤ q / float64.ulp q := by
    rw [le_div_iff₀ (ulp_pos q), ulp_eq, pow52_mul]
    exact hge
  have hr := roundHalfEven_mono hdiv
  rw [roundHalfEven_intCast] at hr
  have hr2 : ((2 ^ 52 : ℤ) : ℚ) ≤ (roundHalfEven (q / float64.ulp q) : ℚ) := by exact_mod_cast hr
  unfold float64.roundMagnitude
  calc (2 : ℚ) ^ float64.exponent q = ((2 ^ 52 : ℤ) : ℚ) * float64.ulp q := by rw [ulp_eq, pow52_mul]
    _ ≤ (roundHalfEven (q / float64.ulp q) : ℚ) * float64.ulp q :=
        mul_le_mul_of_nonneg_right hr2 (ulp_pos q).le

theorem roundPos_mono {x y : ℚ} (hx : 0 ≤ x) (h : x ≤ y) : float64.roundMagnitude x ≤ float64.roundMagnitude y := by
  rcases eq_or_lt_of_le hx with h0 | hpos
  · rw [← h0, roundPos_zero]
    exact roundPos_nonneg (hx.trans h)
  · have hlog : Int.log 2 x ≤ Int.log 2 y := Int.log_mono_right hpos h
    have hE : float64.exponent x ≤ float64.exponent y := by unfold float64.exponent; omega
    rcases eq_or_lt_of_le hE with heq | hlt
    · have hu : float64.ulp x = float64.ulp y := by rw [ulp_eq, ulp_eq, heq]
      unfold float64.roundMagnitude
      rw [hu]
      have hr := roundHalfEven_mono (div_le_div_of_nonneg_right h (ulp_pos y).le)
      have hr2 : (roundHalfEven (x / float64.ulp y) : ℚ) ≤ (roundHalfEven (y / float64.ulp y) : ℚ) := by
        exact_mod_cast hr
      exact mul_le_mul_of_nonneg_right hr2 (ulp_pos y).le
    · have hn : -1022 ≤ Int.log 2 y := by unfold float64.exponent at hlt; omega
      calc float64.roundMagnitude x ≤ 2 ^ (float64.exponent x + 1) := roundPos_le x
        _ ≤ 2 ^ float64.exponent y := zpow_le_zpow_right₀ (by norm_num) (by omega)
        _ ≤ float64.roundMagnitude y := le_roundPos (lt_of_lt_of_le hpos h) hn

theorem float64_zero : float64 0 = 0 := by
  unfold float64
  rw [if_pos le_rfl, roundPos_zero]

theorem float64_nonneg {q : ℚ} (hq : 0 ≤ q) : 0 ≤ float64 q := by
  unfold float64
  rw [if_pos hq]
  exact roundPos_nonneg hq

theorem float64_mono {x y : ℚ} (h : x ≤ y) : float64 x ≤ float64 y := by
  unfold float64
  by_cases hx : 0 ≤ x
  · rw [if_pos hx, if_pos (hx.trans h)]
    exact roundPos_mono hx h
  · by_cases hy : 0 ≤ y
    · rw [if_neg hx, if_pos hy]
      have h1 : 0 ≤ float64.roundMagnitude (-x) := roundPos_nonneg (by linarith)
      have h2 : 0 ≤ float64.roundMagnitude y := roundPos_nonneg hy
      linarith
    · rw [if_neg hx, if_neg hy]
      have := @roundPos_mono (-y) (-x) (by linarith) (by linarith)
      linarith

theorem float64_eq_of_binade (q : ℚ) (e k : ℤ) (h1 : (2 : ℚ) ^ e ≤ q)
    (h2 : q < (2 : ℚ) ^ (e + 1)) (he : -1022 ≤ e)
    (hk1 : (k : ℚ) - 1 / 2 < q / 2 ^ (e - 52)) (hk2 : q / 2 ^ (e - 52) < (k : ℚ) + 1 / 2) :
    float64 q = k * 2 ^ (e - 52) := by
  have hq : 0 < q := lt_of_lt_of_le (by positivity) h1
  have hlog := log_eq_of_bounds h1 h2
  have hu : float64.ulp q = 2 ^ (e - 52) := by
    unfold float64.ulp float64.exponent
    rw [hlog, max_eq_left he]
  unfold float64 float64.roundMagnitude
  rw [if_pos hq.le, hu, roundHalfEven_eq_of_near _ k hk1 hk2]

/-! ## Loop lemmas -/

theorem pixel_Rect (s : SilhouetteApp) (img : image.Image) (x y : Int) (sil : image.RGBA) :
    (SilhouetteApp.generateSilhouette.pixel s img x y sil).Rect = sil.Rect := by
  unfold SilhouetteApp.generateSilhouette.pixel image.RGBA.Set
  dsimp only
  split_ifs <;> rfl

theorem pixel_Pix (s : SilhouetteApp) (img : image.Image) (x y : Int) (sil : image.RGBA)
    (x1 y1 : Int) :
    (SilhouetteApp.generateSilhouette.pixel s img x y sil).Pix x1 y1 =
      if (x1 = x ∧ y1 = y) ∧ image.Point.In ⟨x, y⟩ sil.Rect = true ∧
          (gray (img.At x y) < float64 (1 - s.threshold) ∧ (img.At x y).a > 0)
      then black else sil.Pix x1 y1 := by
  unfold SilhouetteApp.generateSilhouette.pixel image.RGBA.Set
  dsimp only
  by_cases hc : gray (img.At x y) < float64 (1 - s.threshold) ∧ (img.At x y).a > 0
  · by_cases hin : image.Point.In ⟨x, y⟩ sil.Rect = true
    · by_cases hp : x1 = x ∧ y1 = y
      · simp [hc, hin, hp, black]
      · simp [hc, hin, hp]
    · simp [hc, hin]
  · simp [hc]

theorem row_Rect (s : SilhouetteApp) (img : image.Image) (y : Int) (n : Nat) :
    ∀ (x : Int) (sil : image.RGBA),
      (SilhouetteApp.generateSilhouette.row s img y n x sil).Rect = sil.Rect := by
  induction n with
  | zero => intro x sil; rfl
  | succ n ih =>
    intro x sil
    show (SilhouetteApp.generateSilhouette.row s img y n (x + 1) _).Rect = _
    rw [ih, pixel_Rect]

theorem row_Pix (s : SilhouetteApp) (img : image.Image) (y : Int) (n : Nat) :
    ∀ (x : Int) (sil : image.RGBA) (x1 y1 : Int),
      (SilhouetteApp.generateSilhouette.row s img y n x sil).Pix x1 y1 =
        if (y1 = y ∧ x ≤ x1 ∧ x1 < x + n) ∧ image.Point.In ⟨x1, y⟩ sil.Rect = true ∧
            (gray (img.At x1 y) < float64 (1 - s.threshold) ∧ (img.At x1 y).a > 0)
        then black else sil.Pix x1 y1 := by
  induction n with
  | zero =>
    intro x sil x1 y1
    have : ¬ (y1 = y ∧ x ≤ x1 ∧ x1 < x + ((0 : Nat) : Int)) := by
      intro h; omega
    simp only [this, false_and, if_false]
    rfl
  | succ n ih =>
    intro x sil x1 y1
    show (SilhouetteApp.generateSilhouette.row s img y n (x + 1) _).Pix x1 y1 = _
    rw [ih, pixel_Rect, pixel_Pix]
    by_cases hy : y1 = y
    · by_cases hx : x1 = x
      · subst hx
        have h1 : ¬ (x1 + 1 ≤ x1) := by omega
        have h2 : x1 < x1 + ((n + 1 : Nat) : Int) := by push_cast; omega
        simp [hy, h1, h2]
      · by_cases hlo : x + 1 ≤ x1
        · have h1 : x ≤ x1 := by omega
          have h2 : (x1 < x + 1 + (n : Int)) ↔ (x1 < x + ((n + 1 : Nat) : Int)) := by
            push_cast; constructor <;> intro h <;> omega
          simp [hy, hx, hlo, h1, h2]
        · have h1 : ¬ (x ≤ x1) := by omega
          simp [hy, hx, hlo, h1]
    · simp [hy]

theorem rows_Rect (s : SilhouetteApp) (img : image.Image) (n : Nat) :
    ∀ (y : Int) (sil : image.RGBA),
      (SilhouetteApp.generateSilhouette.rows s img n y sil).Rect = sil.Rect := by
  induction n with
  | zero => intro y sil; rfl
  | succ n ih =>
    intro y sil
    show (SilhouetteApp.generateSilhouette.rows s img n (y + 1) _).Rect = _
    rw [ih, row_Rect]

theorem rows_Pix (s : SilhouetteApp) (img : image.Image) (n : Nat) :
    ∀ (y : Int) (sil : image.RGBA) (x1 y1 : Int),
      (SilhouetteApp.generateSilhouette.rows s img n y sil).Pix x1 y1 =
        if (y ≤ y1 ∧ y1 < y + n) ∧
            (img.Bounds.Min.X ≤ x1 ∧
              x1 < img.Bounds.Min.X + ((img.Bounds.Max.X - img.Bounds.Min.X).toNat : Int)) ∧
            image.Point.In ⟨x1, y1⟩ sil.Rect = true ∧
            (gray (img.At x1 y1) < float64 (1 - s.threshold) ∧ (img.At x1 y1).a > 0)
        then black else sil.Pix x1 y1 := by
  induction n with
  | zero =>
    intro y sil x1 y1
    have : ¬ (y ≤ y1 ∧ y1 < y + ((0 : Nat) : Int)) := by
      intro h; omega
    simp only [this, false_and, if_false]
    rfl
  | succ n ih =>
    intro y sil x1 y1
    show (SilhouetteApp.generateSilhouette.rows s img n (y + 1) _).Pix x1 y1 = _
    rw [ih, row_Rect, row_Pix]
    by_cases hy : y1 = y
    · subst hy
      have h1 : ¬ (y1 + 1 ≤ y1) := by omega
      have h2 : y1 < y1 + ((n + 1 : Nat) : Int) := by push_cast; omega
      simp [h1, h2]
    · by_cases hlo : y + 1 ≤ y1
      · have h1 : y ≤ y1 := by omega
        have h2 : (y1 < y + 1 + (n : Int)) ↔ (y1 < y + ((n + 1 : Nat) : Int)) := by
          push_cast; constructor <;> intro h <;> omega
        simp [hy, hlo, h1, h2]
      · have h1 : ¬ (y ≤ y1) := by omega
        simp [hy, hlo, h1]

/-! ## The transform as a whole -/

theorem wellFormed_of_In (x y : Int) (r : image.Rectangle)
    (hin : image.Point.In ⟨x, y⟩ r = true) : r.WellFormed := by
  simp only [image.Point.In, Bool.and_eq_true, decide_eq_true_eq] at hin
  unfold image.Rectangle.WellFormed
  omega

theorem In_iff (x y : Int) (r : image.Rectangle) :
    image.Point.In ⟨x, y⟩ r = true ↔
      (r.Min.X ≤ x ∧ x < r.Max.X) ∧ (r.Min.Y ≤ y ∧ y < r.Max.Y) := by
  simp only [image.Point.In, Bool.and_eq_true, decide_eq_true_eq]
  tauto

theorem NewRGBA_of_wellFormed (r : image.Rectangle) (hwf : r.WellFormed) :
    image.NewRGBA r = some { Rect := r, Pix := fun _ _ => ⟨0, 0, 0, 0⟩ } := by
  unfold image.Rectangle.WellFormed at hwf
  have h : ¬ (r.Dx < 0 ∨ r.Dy < 0) := by
    unfold image.Rectangle.Dx image.Rectangle.Dy; omega
  simp [image.NewRGBA, h]

/-- What the pixel loops compute: on well-formed bounds the bitmap has the
input's bounds and its pixel at every point of the bounds is black when the
test of the loop body holds there and white otherwise. -/
theorem silhouette_spec (s : SilhouetteApp) (img : image.Image)
    (hwf : img.Bounds.WellFormed) :
    ∃ out, SilhouetteApp.generateSilhouette.silhouette s img = some out ∧ out.Rect = img.Bounds ∧
      ∀ x y, image.Point.In ⟨x, y⟩ img.Bounds = true →
        out.RGBAAt x y =
          if gray (img.At x y) < float64 (1 - s.threshold) ∧ (img.At x y).a > 0 then black else white := by
  have hgen : SilhouetteApp.generateSilhouette.silhouette s img = some
      (SilhouetteApp.generateSilhouette.rows s img
        (img.Bounds.Max.Y - img.Bounds.Min.Y).toNat img.Bounds.Min.Y
        (draw.Draw { Rect := img.Bounds, Pix := fun _ _ => ⟨0, 0, 0, 0⟩ } img.Bounds
          ⟨255, 255, 255, 255⟩)) := by
    unfold SilhouetteApp.generateSilhouette.silhouette
    simp only [NewRGBA_of_wellFormed _ hwf]
  refine ⟨_, hgen, ?_, ?_⟩
  · rw [rows_Rect]; rfl
  · intro x y hin
    have hin2 := (In_iff x y img.Bounds).1 hin
    unfold image.RGBA.RGBAAt
    rw [rows_Rect, rows_Pix]
    have hR : (draw.Draw { Rect := img.Bounds, Pix := fun _ _ => ⟨0, 0, 0, 0⟩ } img.Bounds
        ⟨255, 255, 255, 255⟩).Rect = img.Bounds := rfl
    have hP : (draw.Draw { Rect := img.Bounds, Pix := fun _ _ => ⟨0, 0, 0, 0⟩ } img.Bounds
        ⟨255, 255, 255, 255⟩).Pix x y = white := by
      simp [draw.Draw, hin, white]
    rw [hR, hP]
    have hy : img.Bounds.Min.Y ≤ y ∧
        y < img.Bounds.Min.Y + ((img.Bounds.Max.Y - img.Bounds.Min.Y).toNat : Int) := by
      constructor
      · exact hin2.2.1
      · have := hin2.2.2
        omega
    have hx : img.Bounds.Min.X ≤ x ∧
        x < img.Bounds.Min.X + ((img.Bounds.Max.X - img.Bounds.Min.X).toNat : Int) := by
      constructor
      · exact hin2.1.1
      · have := hin2.1.2
        omega
    simp only [hin, hy, hx, and_self, true_and, if_true]


/-! ## Luminance -/

theorem lumaSum_eq (c : color.Color) (hr : c.r ≤ 65535) (hg : c.g ≤ 65535) (hb : c.b ≤ 65535) :
    lumaSum c = c.r * 299 + c.g * 587 + c.b * 114 := by
  unfold lumaSum u32
  have h1 : c.r * 299 % 2 ^ 32 = c.r * 299 := Nat.mod_eq_of_lt (by omega)
  have h2 : c.g * 587 % 2 ^ 32 = c.g * 587 := Nat.mod_eq_of_lt (by omega)
  have h3 : c.b * 114 % 2 ^ 32 = c.b * 114 := Nat.mod_eq_of_lt (by omega)
  rw [h1, h2, h3]
  have h4 : (c.r * 299 + c.g * 587) % 2 ^ 32 = c.r * 299 + c.g * 587 :=
    Nat.mod_eq_of_lt (by omega)
  rw [h4]
  exact Nat.mod_eq_of_lt (by omega)

theorem gray_nonneg (c : color.Color) : 0 ≤ gray c := by
  unfold gray
  apply float64_nonneg
  apply div_nonneg _ (by norm_num)
  apply float64_nonneg
  positivity

theorem gray_16bit (c : color.Color) (hr : c.r ≤ 65535) (hg : c.g ≤ 65535) (hb : c.b ≤ 65535) :
    gray c = float64 (float64 (((c.r : ℚ) * 299 + c.g * 587 + c.b * 114) / 1000) / 65535) := by
  unfold gray
  rw [lumaSum_eq c hr hg hb]
  push_cast
  rfl

/-- Evaluation of `float64` at a rational of a known binade. -/
theorem float64_eval (q v : ℚ) (e k : ℤ) (h1 : (2 : ℚ) ^ e ≤ q)
    (h2 : q < (2 : ℚ) ^ (e + 1)) (he : -1022 ≤ e)
    (hk1 : (k : ℚ) - 1 / 2 < q / 2 ^ (e - 52)) (hk2 : q / 2 ^ (e - 52) < (k : ℚ) + 1 / 2)
    (hv : (k : ℚ) * 2 ^ (e - 52) = v) : float64 q = v := by
  rw [float64_eq_of_binade q e k h1 h2 he hk1 hk2, hv]

theorem float64_one : float64 1 = 1 :=
  float64_eval 1 1 0 (2 ^ 52) (by norm_num) (by norm_num) (by norm_num) (by norm_num)
    (by norm_num) (by norm_num)

theorem float64_65535 : float64 65535 = 65535 :=
  float64_eval 65535 65535 15 (65535 * 2 ^ 37) (by norm_num) (by norm_num) (by norm_num)
    (by norm_num) (by norm_num) (by norm_num)

theorem float64_half : float64 (1 / 2) = 1 / 2 :=
  float64_eval (1 / 2) (1 / 2) (-1) (2 ^ 52) (by norm_num) (by norm_num) (by norm_num)
    (by norm_num) (by norm_num) (by norm_num)

theorem gray_le_one (c : color.Color) (hr : c.r ≤ 65535) (hg : c.g ≤ 65535)
    (hb : c.b ≤ 65535) : gray c ≤ 1 := by
  unfold gray
  rw [lumaSum_eq c hr hg hb]
  have hsum : c.r * 299 + c.g * 587 + c.b * 114 ≤ 65535000 := by omega
  have h1 : ((c.r * 299 + c.g * 587 + c.b * 114 : ℕ) : ℚ) / 1000 ≤ 65535 := by
    rw [div_le_iff₀ (by norm_num)]
    exact_mod_cast hsum
  have h2 := float64_mono h1
  rw [float64_65535] at h2
  have h3 : float64 (((c.r * 299 + c.g * 587 + c.b * 114 : ℕ) : ℚ) / 1000) / 65535 ≤ 1 := by
    rw [div_le_one (by norm_num)]
    exact h2
  have h4 := float64_mono h3
  rw [float64_one] at h4
  exact h4

/-- Evaluation of `gray` from the sum and the two rounded quotients. -/
theorem gray_eval (c : color.Color) (n : ℕ) (v w : ℚ) (hn : lumaSum c = n)
    (h1 : float64 ((n : ℚ) / 1000) = v) (h2 : float64 (v / 65535) = w) : gray c = w := by
  unfold gray
  rw [hn, h1, h2]

/-- The luminances of the scenario bitmap: 0, the `float64` nearest to 0.3, the
`float64` nearest to 0.6, and 1. -/
theorem scenarioImage_gray :
    gray (scenarioImage.At 0 0) = 0 ∧
      gray (scenarioImage.At 1 0) = 5404319552844595 / 18014398509481984 ∧
      gray (scenarioImage.At 0 1) = 5404319552844595 / 9007199254740992 ∧
      gray (scenarioImage.At 1 1) = 1 := by
  refine ⟨?_, ?_, ?_, ?_⟩
  · refine gray_eval _ 0 0 0 (by decide) ?_ ?_
    · rw [Nat.cast_zero, zero_div, float64_zero]
    · rw [zero_div, float64_zero]
  · refine gray_eval _ 19660500 (39321 / 2) _ (by decide) ?_ ?_
    · exact float64_eval _ _ 14 (39321 * 2 ^ 37) (by norm_num) (by norm_num) (by norm_num)
        (by norm_num) (by norm_num) (by norm_num)
    · exact float64_eval _ _ (-2) 5404319552844595 (by norm_num) (by norm_num) (by norm_num)
        (by norm_num) (by norm_num) (by norm_num)
  · refine gray_eval _ 39321000 39321 _ (by decide) ?_ ?_
    · exact float64_eval _ _ 15 (39321 * 2 ^ 37) (by norm_num) (by norm_num) (by norm_num)
        (by norm_num) (by norm_num) (by norm_num)
    · exact float64_eval _ _ (-1) 5404319552844595 (by norm_num) (by norm_num) (by norm_num)
        (by norm_num) (by norm_num) (by norm_num)
  · refine gray_eval _ 65535000 65535 _ (by decide) ?_ ?_
    · exact float64_eval _ _ 15 (65535 * 2 ^ 37) (by norm_num) (by norm_num) (by norm_num)
        (by norm_num) (by norm_num) (by norm_num)
    · exact float64_eval _ _ 0 (2 ^ 52) (by norm_num) (by norm_num) (by norm_num)
        (by norm_num) (by norm_num) (by norm_num)

/-- The adjusted thresholds of the intensities 0.5, 0.1 and 0.6. -/
theorem adjustedThreshold_values :
    float64 (1 - (appWith (1 / 2)).threshold) = 1 / 2 ∧
      float64 (1 - (appWith intensity01).threshold) = 8106479329266893 / 9007199254740992 ∧
      float64 (1 - (appWith intensity06).threshold) = 3602879701896397 / 9007199254740992 := by
  refine ⟨?_, ?_, ?_⟩
  · exact float64_eval _ _ (-1) (2 ^ 52) (by norm_num [appWith, initialApp])
      (by norm_num [appWith, initialApp]) (by norm_num) (by norm_num [appWith, initialApp])
      (by norm_num [appWith, initialApp]) (by norm_num)
  · exact float64_eval _ _ (-1) 8106479329266893 (by norm_num [appWith, initialApp, intensity01])
      (by norm_num [appWith, initialApp, intensity01]) (by norm_num)
      (by norm_num [appWith, initialApp, intensity01])
      (by norm_num [appWith, initialApp, intensity01]) (by norm_num)
  · exact float64_eval _ _ (-2) 7205759403792794 (by norm_num [appWith, initialApp, intensity06])
      (by norm_num [appWith, initialApp, intensity06]) (by norm_num)
      (by norm_num [appWith, initialApp, intensity06])
      (by norm_num [appWith, initialApp, intensity06]) (by norm_num)

/-! ## The claims -/

/-- C7. For channel values `r, g, b` in `[0, 65535]` the weighted sum
`r*299 + g*587 + b*114` computed in 32-bit unsigned arithmetic equals the
mathematical sum (no wrap-around), and the luminance `sum / 1000 / 65535` lies
in `[0, 1]`, both as the exact quotient and as the `float64` value `gray` that
the code computes. -/
theorem lumaSum_exact_and_gray_in_unit_interval (c : color.Color)
    (hr : c.r ≤ 65535) (hg : c.g ≤ 65535) (hb : c.b ≤ 65535) :
    lumaSum c = c.r * 299 + c.g * 587 + c.b * 114 ∧
      c.r * 299 + c.g * 587 + c.b * 114 < 2 ^ 32 ∧
      0 ≤ ((c.r : ℚ) * 299 + c.g * 587 + c.b * 114) / 1000 / 65535 ∧
      ((c.r : ℚ) * 299 + c.g * 587 + c.b * 114) / 1000 / 65535 ≤ 1 ∧
      gray c = float64 (float64 (((c.r : ℚ) * 299 + c.g * 587 + c.b * 114) / 1000) / 65535) ∧
      0 ≤ gray c ∧ gray c ≤ 1 := by
  refine ⟨lumaSum_eq c hr hg hb, by omega, by positivity, ?_, gray_16bit c hr hg hb,
    gray_nonneg c, gray_le_one c hr hg hb⟩
  rw [div_div, div_le_one (by norm_num)]
  have : c.r * 299 + c.g * 587 + c.b * 114 ≤ 65535000 := by omega
  exact_mod_cast this

/-- Witness of C7 at the brightest colour: all three channels at 65535. -/
theorem lumaSum_exact_and_gray_in_unit_interval_witness :
    lumaSum ⟨65535, 65535, 65535, 65535⟩ = 65535 * 299 + 65535 * 587 + 65535 * 114 ∧
      65535 * 299 + 65535 * 587 + 65535 * 114 < 2 ^ 32 ∧
      0 ≤ gray ⟨65535, 65535, 65535, 65535⟩ ∧ gray ⟨65535, 65535, 65535, 65535⟩ ≤ 1 := by
  have h := lumaSum_exact_and_gray_in_unit_interval ⟨65535, 65535, 65535, 65535⟩
    (by decide) (by decide) (by decide)
  exact ⟨h.1, h.2.1, h.2.2.2.2.2.1, h.2.2.2.2.2.2⟩

/-- C1, as stated, fails: for the opaque pixel of straight colour `(102,102,102)`
at the `float64` intensity 0.6 the exact-arithmetic test holds
(`2/5 < 1 - t` and `a > 0`), yet the bitmap has white there, not black: in
`float64` both `gray` and `1.0 - t` round to the same number. -/
theorem exact_rule_fails_at_rounding_boundary :
    image.Point.In ⟨0, 0⟩ boundaryImage.Bounds = true ∧
    (boundaryImage.At 0 0).r ≤ 65535 ∧ (boundaryImage.At 0 0).g ≤ 65535 ∧
    (boundaryImage.At 0 0).b ≤ 65535 ∧
    ((((boundaryImage.At 0 0).r : ℚ) * 299 + (boundaryImage.At 0 0).g * 587
        + (boundaryImage.At 0 0).b * 114) / 1000 / 65535 < 1 - (appWith intensity06).threshold ∧
      0 < (boundaryImage.At 0 0).a) ∧
    ∃ out, SilhouetteApp.generateSilhouette.silhouette (appWith intensity06) boundaryImage
        = some out ∧
      out.RGBAAt 0 0 = ⟨255, 255, 255, 255⟩ ∧ out.RGBAAt 0 0 ≠ ⟨0, 0, 0, 255⟩ := by
  obtain ⟨out, hgen, -, hpix⟩ := silhouette_spec (appWith intensity06) boundaryImage (by decide)
  have hg : gray (boundaryImage.At 0 0) = 3602879701896397 / 9007199254740992 := by
    refine gray_eval _ 26214000 26214 _ (by decide) ?_ ?_
    · exact float64_eval _ _ 14 (26214 * 2 ^ 38) (by norm_num) (by norm_num) (by norm_num)
        (by norm_num) (by norm_num) (by norm_num)
    · exact float64_eval _ _ (-2) 7205759403792794 (by norm_num) (by norm_num) (by norm_num)
        (by norm_num) (by norm_num) (by norm_num)
  have hw : out.RGBAAt 0 0 = ⟨255, 255, 255, 255⟩ := by
    rw [hpix 0 0 (by decide), hg, adjustedThreshold_values.2.2, if_neg]
    · rfl
    · rintro ⟨h, -⟩
      exact lt_irrefl _ h
  have hr : (boundaryImage.At 0 0).r = 26214 := by decide
  have hgr : (boundaryImage.At 0 0).g = 26214 := by decide
  have hb : (boundaryImage.At 0 0).b = 26214 := by decide
  have ha : (boundaryImage.At 0 0).a = 65535 := by decide
  refine ⟨by decide, by decide, by decide, by decide, ⟨?_, by decide⟩, out, hgen, hw, ?_⟩
  · rw [hr, hgr, hb]
    norm_num [appWith, initialApp, intensity06]
  · rw [hw]
    decide

/-- C1, amended. For every bitmap, every intensity and every pixel `(x, y)`
inside the bounds whose channels `r, g, b` are 16-bit values, the bitmap that
`generateSilhouette` computes has at `(x, y)` opaque black `(0,0,0,255)` exactly
when `gray < adjustedThreshold` and `a > 0`, and opaque white `(255,255,255,255)`
otherwise, where `gray = (r*299 + g*587 + b*114) / 1000 / 65535` and
`adjustedThreshold = 1 - t` are evaluated in `float64`, each division and the
subtraction rounded to the nearest binary64 number. -/
theorem generateSilhouette_pixel_rule (s : SilhouetteApp) (img : image.Image) (x y : Int)
    (hin : image.Point.In ⟨x, y⟩ img.Bounds = true)
    (hr : (img.At x y).r ≤ 65535) (hg : (img.At x y).g ≤ 65535) (hb : (img.At x y).b ≤ 65535) :
    ∃ out, SilhouetteApp.generateSilhouette.silhouette s img = some out ∧
      out.RGBAAt x y =
        if float64 (float64 ((((img.At x y).r : ℚ) * 299 + (img.At x y).g * 587
                + (img.At x y).b * 114) / 1000) / 65535) < float64 (1 - s.threshold) ∧
            0 < (img.At x y).a
        then ⟨0, 0, 0, 255⟩ else ⟨255, 255, 255, 255⟩ := by
  obtain ⟨out, hgen, -, hpix⟩ := silhouette_spec s img (wellFormed_of_In x y _ hin)
  refine ⟨out, hgen, ?_⟩
  rw [hpix x y hin, gray_16bit _ hr hg hb]
  rfl

/-- Witness of the amended C1, the concrete scenarios: the 2×2 opaque bitmap
with luminances 0.0, 0.3, 0.6, 1.0 gives black, black, white, white at
intensity 0.5 and black, black, black, white at intensity 0.1. -/
theorem generateSilhouette_pixel_rule_witness :
    (∃ out, SilhouetteApp.generateSilhouette.silhouette (appWith (1 / 2)) scenarioImage
        = some out ∧
      out.RGBAAt 0 0 = ⟨0, 0, 0, 255⟩ ∧ out.RGBAAt 1 0 = ⟨0, 0, 0, 255⟩ ∧
      out.RGBAAt 0 1 = ⟨255, 255, 255, 255⟩ ∧ out.RGBAAt 1 1 = ⟨255, 255, 255, 255⟩) ∧
    (∃ out, SilhouetteApp.generateSilhouette.silhouette (appWith intensity01) scenarioImage
        = some out ∧
      out.RGBAAt 0 0 = ⟨0, 0, 0, 255⟩ ∧ out.RGBAAt 1 0 = ⟨0, 0, 0, 255⟩ ∧
      out.RGBAAt 0 1 = ⟨0, 0, 0, 255⟩ ∧ out.RGBAAt 1 1 = ⟨255, 255, 255, 255⟩) := by
  have g00 := scenarioImage_gray.1
  have g10 := scenarioImage_gray.2.1
  have g01 := scenarioImage_gray.2.2.1
  have g11 := scenarioImage_gray.2.2.2
  rw [gray_16bit _ (by decide) (by decide) (by decide)] at g00 g10 g01 g11
  have a00 : (scenarioImage.At 0 0).a = 65535 := by decide
  have a10 : (scenarioImage.At 1 0).a = 65535 := by decide
  have a01 : (scenarioImage.At 0 1).a = 65535 := by decide
  have a11 : (scenarioImage.At 1 1).a = 65535 := by decide
  constructor
  · have ht := adjustedThreshold_values.1
    obtain ⟨out, hgen, h00⟩ := generateSilhouette_pixel_rule (appWith (1 / 2)) scenarioImage 0 0
      (by decide) (by decide) (by decide) (by decide)
    obtain ⟨o1, g1, h10⟩ := generateSilhouette_pixel_rule (appWith (1 / 2)) scenarioImage 1 0
      (by decide) (by decide) (by decide) (by decide)
    obtain ⟨o2, g2, h01⟩ := generateSilhouette_pixel_rule (appWith (1 / 2)) scenarioImage 0 1
      (by decide) (by decide) (by decide) (by decide)
    obtain ⟨o3, g3, h11⟩ := generateSilhouette_pixel_rule (appWith (1 / 2)) scenarioImage 1 1
      (by decide) (by decide) (by decide) (by decide)
    obtain rfl : out = o1 := Option.some.inj (hgen.symm.trans g1)
    obtain rfl : out = o2 := Option.some.inj (hgen.symm.trans g2)
    obtain rfl : out = o3 := Option.some.inj (hgen.symm.trans g3)
    refine ⟨out, hgen, ?_, ?_, ?_, ?_⟩
    · rw [h00, g00, ht, a00]; norm_num
    · rw [h10, g10, ht, a10]; norm_num
    · rw [h01, g01, ht, a01]; norm_num
    · rw [h11, g11, ht, a11]; norm_num
  · have ht := adjustedThreshold_values.2.1
    obtain ⟨out, hgen, h00⟩ := generateSilhouette_pixel_rule (appWith intensity01) scenarioImage
      0 0 (by decide) (by decide) (by decide) (by decide)
    obtain ⟨o1, g1, h10⟩ := generateSilhouette_pixel_rule (appWith intensity01) scenarioImage
      1 0 (by decide) (by decide) (by decide) (by decide)
    obtain ⟨o2, g2, h01⟩ := generateSilhouette_pixel_rule (appWith intensity01) scenarioImage
      0 1 (by decide) (by decide) (by decide) (by decide)
    obtain ⟨o3, g3, h11⟩ := generateSilhouette_pixel_rule (appWith intensity01) scenarioImage
      1 1 (by decide) (by decide) (by decide) (by decide)
    obtain rfl : out = o1 := Option.some.inj (hgen.symm.trans g1)
    obtain rfl : out = o2 := Option.some.inj (hgen.symm.trans g2)
    obtain rfl : out = o3 := Option.some.inj (hgen.symm.trans g3)
    refine ⟨out, hgen, ?_, ?_, ?_, ?_⟩
    · rw [h00, g00, ht, a00]; norm_num
    · rw [h10, g10, ht, a10]; norm_num
    · rw [h01, g01, ht, a01]; norm_num
    · rw [h11, g11, ht, a11]; norm_num

/-- C2. Two-colour closure: for every bitmap (with well-formed bounds) and every
intensity the transform returns a bitmap every pixel of which is exactly
`(0,0,0,255)` or `(255,255,255,255)`, whatever the input's channels, alpha included. -/
theorem generateSilhouette_two_colours (s : SilhouetteApp) (img : image.Image)
    (hwf : img.Bounds.WellFormed) :
    ∃ out, SilhouetteApp.generateSilhouette.silhouette s img = some out ∧
      ∀ x y, image.Point.In ⟨x, y⟩ out.Rect = true →
        out.RGBAAt x y = ⟨0, 0, 0, 255⟩ ∨ out.RGBAAt x y = ⟨255, 255, 255, 255⟩ := by
  obtain ⟨out, hgen, hrect, hpix⟩ := silhouette_spec s img hwf
  refine ⟨out, hgen, ?_⟩
  intro x y hin
  rw [hrect] at hin
  rw [hpix x y hin]
  by_cases hc : gray (img.At x y) < float64 (1 - s.threshold) ∧ (img.At x y).a > 0
  · left; rw [if_pos hc]; rfl
  · right; rw [if_neg hc]; rfl

/-- Witness of C2 on the 2×1 bitmap that has a pixel of alpha 1. -/
theorem generateSilhouette_two_colours_witness :
    fadedImage.Bounds.WellFormed ∧
    ∃ out, SilhouetteApp.generateSilhouette.silhouette (appWith (1 / 2)) fadedImage = some out ∧
      ∀ x y, image.Point.In ⟨x, y⟩ out.Rect = true →
        out.RGBAAt x y = ⟨0, 0, 0, 255⟩ ∨ out.RGBAAt x y = ⟨255, 255, 255, 255⟩ :=
  ⟨by decide, generateSilhouette_two_colours (appWith (1 / 2)) fadedImage (by decide)⟩

/-- C3. Transparency maps to white: for every bitmap, every intensity and every
pixel inside the bounds whose alpha is 0, the transform returns a bitmap whose
pixel there is `(255,255,255,255)`, whatever the red, green and blue channels. -/
theorem generateSilhouette_transparent_white (s : SilhouetteApp) (img : image.Image)
    (x y : Int) (hin : image.Point.In ⟨x, y⟩ img.Bounds = true)
    (ha : (img.At x y).a = 0) :
    ∃ out, SilhouetteApp.generateSilhouette.silhouette s img = some out ∧
      out.RGBAAt x y = ⟨255, 255, 255, 255⟩ := by
  obtain ⟨out, hgen, -, hpix⟩ := silhouette_spec s img (wellFormed_of_In x y _ hin)
  refine ⟨out, hgen, ?_⟩
  rw [hpix x y hin, if_neg]
  · rfl
  · rintro ⟨-, h⟩
    omega

/-- Witness of C3: a fully transparent pixel of luminance 0 at intensity 0.1. -/
theorem generateSilhouette_transparent_white_witness :
    image.Point.In ⟨0, 0⟩ transparentImage.Bounds = true ∧
    (transparentImage.At 0 0).a = 0 ∧
    ∃ out, SilhouetteApp.generateSilhouette.silhouette (appWith (1 / 10)) transparentImage = some out ∧
      out.RGBAAt 0 0 = ⟨255, 255, 255, 255⟩ :=
  ⟨by decide, by decide,
    generateSilhouette_transparent_white (appWith (1 / 10)) transparentImage 0 0
      (by decide) (by decide)⟩

/-- C5, as stated, fails: on a zero-area bitmap (width 0, height 3) the pixel
loops do leave a zero-area bitmap, but `png.Encode` rejects it and
`generateSilhouette` ends in the error dialog: no silhouette is produced. -/
theorem zero_area_bitmap_is_rejected :
    emptyImage.Bounds.WellFormed ∧ emptyImage.Bounds.Dx = 0 ∧
    (∃ out, SilhouetteApp.generateSilhouette.silhouette (appWith (1 / 2)) emptyImage
        = some out ∧ out.Rect = emptyImage.Bounds) ∧
    (appWith (1 / 2)).generateSilhouette emptyImage =
      some (.errorDialog "invalid image size") ∧
    ¬ ∃ out, (appWith (1 / 2)).generateSilhouette emptyImage = some (.preview out) := by
  obtain ⟨out, hgen, hrect, -⟩ := silhouette_spec (appWith (1 / 2)) emptyImage (by decide)
  have herr : (appWith (1 / 2)).generateSilhouette emptyImage =
      some (.errorDialog "invalid image size") := by
    unfold SilhouetteApp.generateSilhouette
    rw [hgen]
    have hdx : out.Rect.Dx = 0 := by rw [hrect]; decide
    simp [png.Encode, hdx]
  refine ⟨by decide, by decide, ⟨out, hgen, hrect⟩, herr, ?_⟩
  rintro ⟨o, ho⟩
  rw [herr] at ho
  cases ho

/-- C5, amended. Dimension preservation: for every bitmap whose width and
height are at least 1 (and below `2^32`) and every intensity,
`generateSilhouette` ends without an error and the silhouette it puts in the
preview has exactly the bounds, hence the width and height, of the input. -/
theorem generateSilhouette_bounds (s : SilhouetteApp) (img : image.Image)
    (hw : 0 < img.Bounds.Dx ∧ img.Bounds.Dx < 2 ^ 32)
    (hh : 0 < img.Bounds.Dy ∧ img.Bounds.Dy < 2 ^ 32) :
    ∃ out, s.generateSilhouette img = some (.preview out) ∧ out.Rect = img.Bounds ∧
      out.Rect.Dx = img.Bounds.Dx ∧ out.Rect.Dy = img.Bounds.Dy := by
  have hwf : img.Bounds.WellFormed := by
    unfold image.Rectangle.WellFormed
    unfold image.Rectangle.Dx at hw
    unfold image.Rectangle.Dy at hh
    omega
  obtain ⟨out, hgen, hrect, -⟩ := silhouette_spec s img hwf
  refine ⟨out, ?_, hrect, by rw [hrect], by rw [hrect]⟩
  unfold SilhouetteApp.generateSilhouette
  rw [hgen]
  have hok : ¬ (out.Rect.Dx ≤ 0 ∨ out.Rect.Dy ≤ 0 ∨ out.Rect.Dx ≥ 2 ^ 32 ∨
      out.Rect.Dy ≥ 2 ^ 32) := by
    rw [hrect]
    omega
  simp only [png.Encode, hok, if_false]

/-- Witness of the amended C5 on the 2×2 scenario bitmap. -/
theorem generateSilhouette_bounds_witness :
    scenarioImage.Bounds.Dx = 2 ∧ scenarioImage.Bounds.Dy = 2 ∧
    ∃ out, (appWith (1 / 2)).generateSilhouette scenarioImage = some (.preview out) ∧
      out.Rect = scenarioImage.Bounds ∧
      out.Rect.Dx = scenarioImage.Bounds.Dx ∧ out.Rect.Dy = scenarioImage.Bounds.Dy :=
  ⟨by decide, by decide,
    generateSilhouette_bounds (appWith (1 / 2)) scenarioImage (by decide) (by decide)⟩

/-- C6. At intensity 1.0 (`adjustedThreshold = 0`) the transform returns an
entirely white bitmap for every bitmap (with well-formed bounds): no pixel, not
even an opaque one with `gray = 0`, satisfies `gray < 0`. -/
theorem generateSilhouette_intensity_one_white (s : SilhouetteApp) (img : image.Image)
    (hwf : img.Bounds.WellFormed) (ht : s.threshold = 1) :
    ∃ out, SilhouetteApp.generateSilhouette.silhouette s img = some out ∧
      ∀ x y, image.Point.In ⟨x, y⟩ out.Rect = true →
        out.RGBAAt x y = ⟨255, 255, 255, 255⟩ := by
  obtain ⟨out, hgen, hrect, hpix⟩ := silhouette_spec s img hwf
  refine ⟨out, hgen, ?_⟩
  intro x y hin
  rw [hrect] at hin
  rw [hpix x y hin, if_neg]
  · rfl
  · rintro ⟨h, -⟩
    rw [ht, sub_self, float64_zero] at h
    exact absurd h (not_lt.mpr (gray_nonneg _))

/-- Witness of C6 on the scenario bitmap, whose first pixel is opaque with `gray = 0`. -/
theorem generateSilhouette_intensity_one_white_witness :
    scenarioImage.Bounds.WellFormed ∧ (appWith 1).threshold = 1 ∧
    ∃ out, SilhouetteApp.generateSilhouette.silhouette (appWith 1) scenarioImage = some out ∧
      ∀ x y, image.Point.In ⟨x, y⟩ out.Rect = true →
        out.RGBAAt x y = ⟨255, 255, 255, 255⟩ :=
  ⟨by decide, rfl, generateSilhouette_intensity_one_white (appWith 1) scenarioImage
    (by decide) rfl⟩

/-- C4, as stated, fails: the opaque pixel of luminance 0.6 of the scenario bitmap
is black at intensity 0.1 and white, hence not black, at the higher intensity 0.5. -/
theorem raising_intensity_whitens_pixel :
    (appWith intensity01).threshold ≤ (appWith (1 / 2)).threshold ∧
    image.Point.In ⟨0, 1⟩ scenarioImage.Bounds = true ∧
    ∃ out1 out2,
      SilhouetteApp.generateSilhouette.silhouette (appWith intensity01) scenarioImage
        = some out1 ∧
      SilhouetteApp.generateSilhouette.silhouette (appWith (1 / 2)) scenarioImage
        = some out2 ∧
      out1.RGBAAt 0 1 = ⟨0, 0, 0, 255⟩ ∧ out2.RGBAAt 0 1 = ⟨255, 255, 255, 255⟩ ∧
      out2.RGBAAt 0 1 ≠ ⟨0, 0, 0, 255⟩ := by
  obtain ⟨out1, g1, -, p1⟩ := silhouette_spec (appWith intensity01) scenarioImage (by decide)
  obtain ⟨out2, g2, -, p2⟩ := silhouette_spec (appWith (1 / 2)) scenarioImage (by decide)
  have hg := scenarioImage_gray.2.2.1
  have ha : (scenarioImage.At 0 1).a = 65535 := by decide
  have h1 : out1.RGBAAt 0 1 = ⟨0, 0, 0, 255⟩ := by
    rw [p1 0 1 (by decide), hg, ha, adjustedThreshold_values.2.1]
    norm_num [black]
  have h2 : out2.RGBAAt 0 1 = ⟨255, 255, 255, 255⟩ := by
    rw [p2 0 1 (by decide), hg, ha, adjustedThreshold_values.1]
    norm_num [white]
  refine ⟨by norm_num [appWith, initialApp, intensity01], by decide, out1, out2, g1, g2,
    h1, h2, ?_⟩
  rw [h2]
  decide

/-- C4, amended. Lowering the intensity expands the black region: for every
bitmap, every two intensities `t1 ≤ t2` and every pixel inside the bounds, the
transform returns a bitmap at both intensities, and a pixel that is black at
`t2` is also black at `t1`. -/
theorem generateSilhouette_black_antitone (s1 s2 : SilhouetteApp) (img : image.Image)
    (x y : Int) (hle : s1.threshold ≤ s2.threshold)
    (hin : image.Point.In ⟨x, y⟩ img.Bounds = true) :
    ∃ out1 out2, SilhouetteApp.generateSilhouette.silhouette s1 img = some out1 ∧
      SilhouetteApp.generateSilhouette.silhouette s2 img = some out2 ∧
      (out2.RGBAAt x y = ⟨0, 0, 0, 255⟩ → out1.RGBAAt x y = ⟨0, 0, 0, 255⟩) := by
  have hwf := wellFormed_of_In x y _ hin
  obtain ⟨out1, g1, -, p1⟩ := silhouette_spec s1 img hwf
  obtain ⟨out2, g2, -, p2⟩ := silhouette_spec s2 img hwf
  refine ⟨out1, out2, g1, g2, ?_⟩
  rw [p1 x y hin, p2 x y hin]
  intro h2
  by_cases hc : gray (img.At x y) < float64 (1 - s2.threshold) ∧ (img.At x y).a > 0
  · have hmono : float64 (1 - s2.threshold) ≤ float64 (1 - s1.threshold) :=
      float64_mono (by linarith)
    have hc1 : gray (img.At x y) < float64 (1 - s1.threshold) ∧ (img.At x y).a > 0 :=
      ⟨lt_of_lt_of_le hc.1 hmono, hc.2⟩
    rw [if_pos hc1]
    rfl
  · rw [if_neg hc] at h2
    exact absurd h2 (by decide)

/-- Witness of the amended C4 on the scenario bitmap: intensities 0.1 and 0.5,
the pixel of luminance 0.3, which is black at intensity 0.5 and therefore
black at intensity 0.1. -/
theorem generateSilhouette_black_antitone_witness :
    (appWith intensity01).threshold ≤ (appWith (1 / 2)).threshold ∧
    image.Point.In ⟨1, 0⟩ scenarioImage.Bounds = true ∧
    ∃ out1 out2,
      SilhouetteApp.generateSilhouette.silhouette (appWith intensity01) scenarioImage
        = some out1 ∧
      SilhouetteApp.generateSilhouette.silhouette (appWith (1 / 2)) scenarioImage
        = some out2 ∧
      out2.RGBAAt 1 0 = ⟨0, 0, 0, 255⟩ ∧ out1.RGBAAt 1 0 = ⟨0, 0, 0, 255⟩ := by
  have hle : (appWith intensity01).threshold ≤ (appWith (1 / 2)).threshold := by
    norm_num [appWith, initialApp, intensity01]
  obtain ⟨out1, out2, g1, g2, himp⟩ :=
    generateSilhouette_black_antitone (appWith intensity01) (appWith (1 / 2)) scenarioImage 1 0
      hle (by decide)
  obtain ⟨o2, g2a, -, p2⟩ := silhouette_spec (appWith (1 / 2)) scenarioImage (by decide)
  obtain rfl : out2 = o2 := Option.some.inj (g2.symm.trans g2a)
  have ha : (scenarioImage.At 1 0).a = 65535 := by decide
  have h2 : out2.RGBAAt 1 0 = ⟨0, 0, 0, 255⟩ := by
    rw [p2 1 0 (by decide), scenarioImage_gray.2.1, ha, adjustedThreshold_values.1]
    norm_num [black]
  exact ⟨hle, by decide, out1, out2, g1, g2, h2, himp h2⟩

/-- C8, as stated, fails: the two `color.NRGBA` pixels of `fadedImage` have the
same straight red, green and blue (255 each) and both have alpha > 0, yet at
intensity 0.5 the opaque one comes out white and the one of alpha 1 black,
because `RGBA()` hands the transform alpha-premultiplied channels. -/
theorem straight_colour_alpha_changes_output :
    (fadedPixels 0 0).R = (fadedPixels 1 0).R ∧ (fadedPixels 0 0).G = (fadedPixels 1 0).G ∧
    (fadedPixels 0 0).B = (fadedPixels 1 0).B ∧
    0 < (fadedPixels 0 0).A ∧ 0 < (fadedPixels 1 0).A ∧
    0 < (fadedImage.At 0 0).a ∧ 0 < (fadedImage.At 1 0).a ∧
    ∃ out, SilhouetteApp.generateSilhouette.silhouette (appWith (1 / 2)) fadedImage = some out ∧
      out.RGBAAt 0 0 = ⟨255, 255, 255, 255⟩ ∧ out.RGBAAt 1 0 = ⟨0, 0, 0, 255⟩ ∧
      out.RGBAAt 0 0 ≠ out.RGBAAt 1 0 := by
  obtain ⟨out, hgen, -, hpix⟩ := silhouette_spec (appWith (1 / 2)) fadedImage (by decide)
  have g0 : gray (fadedImage.At 0 0) = 1 := by
    refine gray_eval _ 65535000 65535 _ (by decide) ?_ ?_
    · exact float64_eval _ _ 15 (65535 * 2 ^ 37) (by norm_num) (by norm_num) (by norm_num)
        (by norm_num) (by norm_num) (by norm_num)
    · exact float64_eval _ _ 0 (2 ^ 52) (by norm_num) (by norm_num) (by norm_num)
        (by norm_num) (by norm_num) (by norm_num)
  have g1 : gray (fadedImage.At 1 0) ≤ 1 / 4 := by
    have hn : lumaSum (fadedImage.At 1 0) = 257000 := by decide
    unfold gray
    rw [hn]
    have h1 : float64 (((257000 : ℕ) : ℚ) / 1000) / 65535 ≤ 1 / 4 := by
      rw [div_le_iff₀ (by norm_num)]
      have h3 : float64 (((257000 : ℕ) : ℚ) / 1000) ≤ float64 512 :=
        float64_mono (by norm_num)
      have h4 : float64 512 = 512 :=
        float64_eval _ _ 9 (2 ^ 52) (by norm_num) (by norm_num) (by norm_num)
          (by norm_num) (by norm_num) (by norm_num)
      rw [h4] at h3
      linarith
    have h5 := float64_mono h1
    have h6 : float64 (1 / 4) = 1 / 4 :=
      float64_eval _ _ (-2) (2 ^ 52) (by norm_num) (by norm_num) (by norm_num)
        (by norm_num) (by norm_num) (by norm_num)
    rw [h6] at h5
    exact h5
  have ht := adjustedThreshold_values.1
  have h0 : out.RGBAAt 0 0 = ⟨255, 255, 255, 255⟩ := by
    rw [hpix 0 0 (by decide), g0, ht, if_neg]
    · rfl
    · rintro ⟨h, -⟩
      norm_num at h
  have h1 : out.RGBAAt 1 0 = ⟨0, 0, 0, 255⟩ := by
    rw [hpix 1 0 (by decide), ht, if_pos]
    · rfl
    · exact ⟨by linarith, by decide⟩
  refine ⟨by decide, by decide, by decide, by decide, by decide, by decide, by decide,
    out, hgen, h0, h1, ?_⟩
  rw [h0, h1]
  decide

/-- C8, amended. The transform classifies pixels from the alpha-premultiplied
channels that `Color.RGBA()` returns: for every bitmap, every intensity and
every two pixels inside the bounds with the same premultiplied red, green and
blue values and both with alpha > 0, the output colour is the same. -/
theorem generateSilhouette_same_premultiplied_rgb (s : SilhouetteApp) (img : image.Image)
    (x1 y1 x2 y2 : Int)
    (hin1 : image.Point.In ⟨x1, y1⟩ img.Bounds = true)
    (hin2 : image.Point.In ⟨x2, y2⟩ img.Bounds = true)
    (hr : (img.At x1 y1).r = (img.At x2 y2).r) (hg : (img.At x1 y1).g = (img.At x2 y2).g)
    (hb : (img.At x1 y1).b = (img.At x2 y2).b)
    (ha1 : 0 < (img.At x1 y1).a) (ha2 : 0 < (img.At x2 y2).a) :
    ∃ out, SilhouetteApp.generateSilhouette.silhouette s img = some out ∧ out.RGBAAt x1 y1 = out.RGBAAt x2 y2 := by
  obtain ⟨out, hgen, -, hpix⟩ := silhouette_spec s img (wellFormed_of_In x1 y1 _ hin1)
  refine ⟨out, hgen, ?_⟩
  rw [hpix x1 y1 hin1, hpix x2 y2 hin2]
  have hgray : gray (img.At x1 y1) = gray (img.At x2 y2) := by
    unfold gray lumaSum
    rw [hr, hg, hb]
  rw [hgray]
  simp only [gt_iff_lt, ha1, ha2]

/-- Witness of the amended C8: straight white of alpha 1 and the opaque straight
colour `(1,1,1)` both premultiply to `(257,257,257)`. -/
theorem generateSilhouette_same_premultiplied_rgb_witness :
    (shadedImage.At 0 0).r = 257 ∧ (shadedImage.At 1 0).r = 257 ∧
    (shadedImage.At 0 0).a ≠ (shadedImage.At 1 0).a ∧
    ∃ out, SilhouetteApp.generateSilhouette.silhouette (appWith (1 / 2)) shadedImage = some out ∧
      out.RGBAAt 0 0 = out.RGBAAt 1 0 :=
  ⟨by decide, by decide, by decide,
    generateSilhouette_same_premultiplied_rgb (appWith (1 / 2)) shadedImage 0 0 1 0
      (by decide) (by decide) (by decide) (by decide) (by decide) (by decide) (by decide)⟩

/-! ### The save path -/

theorem saveSilhouette_pixel_eq (s : SilhouetteApp) (img : image.Image) (x y : Int)
    (sil : image.RGBA) :
    SilhouetteApp.saveSilhouette.pixel s img x y sil =
      SilhouetteApp.generateSilhouette.pixel s img x y sil := rfl

theorem saveSilhouette_row_eq (s : SilhouetteApp) (img : image.Image) (y : Int) (n : Nat) :
    ∀ (x : Int) (sil : image.RGBA),
      SilhouetteApp.saveSilhouette.row s img y n x sil =
        SilhouetteApp.generateSilhouette.row s img y n x sil := by
  induction n with
  | zero => intro x sil; rfl
  | succ n ih =>
    intro x sil
    show SilhouetteApp.saveSilhouette.row s img y n (x + 1) _ =
      SilhouetteApp.generateSilhouette.row s img y n (x + 1) _
    rw [ih, saveSilhouette_pixel_eq]

theorem saveSilhouette_rows_eq (s : SilhouetteApp) (img : image.Image) (n : Nat) :
    ∀ (y : Int) (sil : image.RGBA),
      SilhouetteApp.saveSilhouette.rows s img n y sil =
        SilhouetteApp.generateSilhouette.rows s img n y sil := by
  induction n with
  | zero => intro y sil; rfl
  | succ n ih =>
    intro y sil
    show SilhouetteApp.saveSilhouette.rows s img n (y + 1) _ =
      SilhouetteApp.generateSilhouette.rows s img n (y + 1) _
    rw [ih, saveSilhouette_row_eq]

/-- C10. The exported silhouette equals the previewed one: for every decoded
image and every threshold the pixel loop inlined in `saveSilhouette` yields the
same result as that of `generateSilhouette`, and on well-formed bounds both
yield one and the same bitmap: same bounds, same colour at every position. -/
theorem saveSilhouette_render_eq_generateSilhouette (s : SilhouetteApp) (img : image.Image) :
    SilhouetteApp.saveSilhouette.render s img =
        SilhouetteApp.generateSilhouette.silhouette s img ∧
      (img.Bounds.WellFormed →
        ∃ saved shown, SilhouetteApp.saveSilhouette.render s img = some saved ∧
          SilhouetteApp.generateSilhouette.silhouette s img = some shown ∧ saved.Rect = shown.Rect ∧
          ∀ x y, saved.RGBAAt x y = shown.RGBAAt x y) := by
  have heq : SilhouetteApp.saveSilhouette.render s img =
        SilhouetteApp.generateSilhouette.silhouette s img := by
    unfold SilhouetteApp.saveSilhouette.render SilhouetteApp.generateSilhouette.silhouette
    simp only [saveSilhouette_rows_eq]
  refine ⟨heq, ?_⟩
  intro hwf
  obtain ⟨out, hgen, -, -⟩ := silhouette_spec s img hwf
  exact ⟨out, out, heq.trans hgen, hgen, rfl, fun _ _ => rfl⟩

/-! ### The image browser -/

/-- C9 fails on the code. From the initial state, load a folder of three images,
step to the third, then load a folder whose walk collects one image and fails:
`loadImages` returns on the error with the new one-element list and the old
index 2, and the next `saveSilhouette` or `onThresholdChanged` reads
`s.images[2]` out of range. -/
theorem failed_walk_leaves_index_out_of_range :
    ∃ s, run [.loadImages threeImages, .nextImage, .nextImage, .loadImages failingWalk]
        initialApp = some s ∧
      s.images = ["other/a.png"] ∧ s.currentImage = 2 ∧ ¬ IndexInRange s ∧
      step s .saveSilhouette = none ∧ step s (.onThresholdChanged (1 / 2)) = none := by
  refine ⟨{ initialApp with images := ["other/a.png"], currentImage := 2 }, ?_, rfl, rfl, ?_, ?_, ?_⟩
  · rfl
  · unfold IndexInRange
    simp
  · rfl
  · rfl

theorem sliceIndex_in_range (xs : List String) (i : Int)
    (h : 0 ≤ i ∧ i < (xs.length : Int)) :
    (sliceIndex xs i).map (fun _ => ()) = some () := by
  unfold sliceIndex
  rw [if_pos h]
  have hlt : i.toNat < xs.length := by omega
  rw [List.get?_eq_get hlt]
  rfl

theorem updateUI_ok (s : SilhouetteApp) (h : IndexInRange s) : s.updateUI = some () := by
  unfold SilhouetteApp.updateUI
  by_cases h0 : s.images.length = 0
  · rw [if_pos h0]
  · rw [if_neg h0]
    exact sliceIndex_in_range _ _ (h (fun hn => h0 (by rw [hn]; rfl)))

theorem loadCurrentImage_ok (s : SilhouetteApp) (h : IndexInRange s) :
    s.loadCurrentImage = some () := by
  unfold SilhouetteApp.loadCurrentImage
  by_cases h0 : s.images.length = 0
  · rw [if_pos h0]
  · rw [if_neg h0]
    exact sliceIndex_in_range _ _ (h (fun hn => h0 (by rw [hn]; rfl)))

/-- Where no walk fails the browser is index-safe: an action taken in a state
that satisfies the index invariant does not panic and re-establishes it. -/
theorem step_preserves_IndexInRange (s : SilhouetteApp) (e : Event)
    (h : IndexInRange s) (he : e.NoWalkError) :
    ∃ s1, step s e = some s1 ∧ IndexInRange s1 := by
  cases e with
  | loadImages entries =>
    have he1 : (walk entries []).2 = false := he
    show ∃ s1, s.loadImages entries = some s1 ∧ IndexInRange s1
    unfold SilhouetteApp.loadImages
    simp only [he1, Bool.false_eq_true, if_false]
    by_cases h0 : (walk entries []).1.length = 0
    · rw [if_pos h0]
      refine ⟨_, rfl, ?_⟩
      intro hne
      exact absurd (List.length_eq_zero.mp h0) hne
    · rw [if_neg h0]
      have hinv : IndexInRange { s with images := (walk entries []).1, currentImage := 0 } := by
        intro _
        show (0 : Int) ≤ 0 ∧ (0 : Int) < ((walk entries []).1.length : Int)
        omega
      refine ⟨_, ?_, hinv⟩
      dsimp only
      rw [updateUI_ok _ hinv, loadCurrentImage_ok _ hinv]
      rfl
  | previousImage =>
    show ∃ s1, s.previousImage = some s1 ∧ IndexInRange s1
    unfold SilhouetteApp.previousImage
    by_cases hc : s.currentImage > 0
    · rw [if_pos hc]
      have hinv : IndexInRange { s with currentImage := s.currentImage - 1 } := by
        intro hne
        have := h hne
        show 0 ≤ s.currentImage - 1 ∧ s.currentImage - 1 < (s.images.length : Int)
        omega
      refine ⟨_, ?_, hinv⟩
      dsimp only
      rw [updateUI_ok _ hinv, loadCurrentImage_ok _ hinv]
      rfl
    · rw [if_neg hc]
      exact ⟨s, rfl, h⟩
  | nextImage =>
    show ∃ s1, s.nextImage = some s1 ∧ IndexInRange s1
    unfold SilhouetteApp.nextImage
    by_cases hc : s.currentImage < (s.images.length : Int) - 1
    · rw [if_pos hc]
      have hinv : IndexInRange { s with currentImage := s.currentImage + 1 } := by
        intro hne
        have := h hne
        show 0 ≤ s.currentImage + 1 ∧ s.currentImage + 1 < (s.images.length : Int)
        omega
      refine ⟨_, ?_, hinv⟩
      dsimp only
      rw [updateUI_ok _ hinv, loadCurrentImage_ok _ hinv]
      rfl
    · rw [if_neg hc]
      exact ⟨s, rfl, h⟩
  | onThresholdChanged value =>
    show ∃ s1, s.onThresholdChanged value = some s1 ∧ IndexInRange s1
    unfold SilhouetteApp.onThresholdChanged
    have hinv : IndexInRange { s with threshold := value } := h
    refine ⟨_, ?_, hinv⟩
    dsimp only
    rw [loadCurrentImage_ok _ hinv]
    rfl
  | saveSilhouette =>
    show ∃ s1, s.saveSilhouette = some s1 ∧ IndexInRange s1
    unfold SilhouetteApp.saveSilhouette
    by_cases h0 : s.images.length = 0
    · rw [if_pos h0]
      exact ⟨s, rfl, h⟩
    · rw [if_neg h0]
      have hr := h (fun hn => h0 (by rw [hn]; rfl))
      refine ⟨s, ?_, h⟩
      unfold sliceIndex
      rw [if_pos hr]
      have hlt : s.currentImage.toNat < s.images.length := by omega
      rw [List.get?_eq_get hlt]
      rfl

/-- Where no walk fails, every sequence of actions from the initial state runs
without a panic and ends in a state that satisfies the index invariant. -/
theorem run_index_safe_without_walk_error (es : List Event)
    (hes : ∀ e ∈ es, e.NoWalkError) :
    ∃ s, run es initialApp = some s ∧ IndexInRange s := by
  have key : ∀ (es : List Event) (s0 : SilhouetteApp), IndexInRange s0 →
      (∀ e ∈ es, e.NoWalkError) → ∃ s, run es s0 = some s ∧ IndexInRange s := by
    intro es
    induction es with
    | nil => intro s0 h0 _; exact ⟨s0, rfl, h0⟩
    | cons e es ih =>
      intro s0 h0 hall
      obtain ⟨s1, hs1, hinv1⟩ := step_preserves_IndexInRange s0 e h0
        (hall e (List.mem_cons_self e es))
      obtain ⟨s2, hs2, hinv2⟩ := ih s1 hinv1 (fun e1 he1 => hall e1 (List.mem_cons_of_mem e he1))
      refine ⟨s2, ?_, hinv2⟩
      show (step s0 e).bind (run es) = some s2
      rw [hs1]
      exact hs2
  exact key es initialApp (fun hne => absurd rfl hne) hes
